import Mathlib

/-!
Verification of `scripts/send_logs_from_file.py`.

The script reads a text file, trims each line, drops blank lines, and sends
each remaining line as a single OTLP log record via one HTTP POST per line.
It counts successes (`sent`) and failures (`failed`), prints a diagnostic
line per failure, prints a progress line after a batch when
`(i + batch_size) % 500 == 0`, and finally reports a rate
(`sent / elapsed` guarded against `elapsed = 0`).

Shallow embedding choices:
* file reading is replaced by the list of raw lines of the file;
* the network (`urlopen`) is abstracted by an oracle mapping the index of
  each send attempt to its outcome: either an HTTP response with a status
  code, or a caught transport error (`HTTPError`/`URLError`) with message;
* wall-clock readings are passed in explicitly (`now_ns` for payload
  construction, elapsed values for the rate computations);
* console output is modelled as a list of structured events (progress
  lines and diagnostic lines).
-/

/-- Outcome of one `urlopen` call in `send_logs`: either a response object
carrying a status code, or a raised-and-caught `HTTPError`/`URLError`. -/
inductive SendOutcome where
| response (status : Nat)
| transportError (msg : String)
deriving DecidableEq

/-- The success test of `send_logs`, line 91: `response.status == 200`. -/
def SendOutcome.isSuccess : SendOutcome → Bool
| .response status => status == 200
| .transportError _ => false

/-- A console line emitted by the sending loop: the progress line (102-105),
the non-200 diagnostic (line 95), or the exception diagnostic (line 99). -/
inductive Event where
| progress (sent total : Nat) (r : ℚ)
| failedStatus (status : Nat) (preview : String)
| sendError (msg : String)
deriving DecidableEq

/-- Whether an event is the progress line. -/
def Event.isProgress : Event → Bool
| .progress _ _ _ => true
| _ => false

/-- The rate computation of lines 104 and 109:
`rate = sent / elapsed if elapsed > 0 else 0`. -/
def rate (sent : Nat) (elapsed : ℚ) : ℚ :=
  if 0 < elapsed then (sent : ℚ) / elapsed else 0

/-- Characters removed by Python's `str.strip()` (ASCII whitespace). -/
def pyIsSpace (c : Char) : Bool :=
  c == ' ' || c == '\t' || c == '\n' || c == '\r' || c == '\x0b' || c == '\x0c'

/-- Python's `line.strip()`: remove leading and trailing whitespace. -/
def pyStrip (s : String) : String :=
  String.mk (((s.data.dropWhile pyIsSpace).reverse.dropWhile pyIsSpace).reverse)

/-- Python's slice `s[:n]`: the first `n` characters of `s`. -/
def pyTake (n : Nat) (s : String) : String :=
  String.mk (s.data.take n)

/-- Line 63: `lines = [line.strip() for line in f if line.strip()]`. -/
def processedLines (raw : List String) : List String :=
  (raw.filter (fun l => !(pyStrip l == ""))).map pyStrip

/-- One attribute entry `{"key": ..., "value": {"stringValue": ...}}`. -/
structure AttributeKV where
  key : String
  stringValue : String
deriving DecidableEq

/-- One entry of `logRecords` in the payload of `create_otlp_payload`. -/
structure LogRecord where
  timeUnixNano : String
  observedTimeUnixNano : String
  severityNumber : Nat
  severityText : String
  bodyStringValue : String
  attributes : List AttributeKV
deriving DecidableEq

/-- One entry of `scopeLogs` in the payload of `create_otlp_payload`. -/
structure ScopeLog where
  scopeName : String
  scopeVersion : String
  logRecords : List LogRecord
deriving DecidableEq

/-- One entry of `resourceLogs` in the payload of `create_otlp_payload`. -/
structure ResourceLog where
  resourceAttributes : List AttributeKV
  scopeLogs : List ScopeLog
deriving DecidableEq

/-- The dictionary returned by `create_otlp_payload`. -/
structure OtlpPayload where
  resourceLogs : List ResourceLog
deriving DecidableEq

/-- Lines 17-56, `create_otlp_payload(log_body, severity="INFO")`.
`now_ns` stands for `int(time.time() * 1_000_000_000)` captured once at
construction (line 19); both time fields are `str(now_ns)`. -/
def create_otlp_payload (now_ns : Nat) (log_body : String)
    (severity : String := "INFO") : OtlpPayload :=
  { resourceLogs := [
      { resourceAttributes := [
          { key := "service.name", stringValue := "real-logs" },
          { key := "host.name", stringValue := "combo" },
          { key := "deployment.environment", stringValue := "production" } ],
        scopeLogs := [
          { scopeName := "file-log-sender",
            scopeVersion := "1.0.0",
            logRecords := [
              { timeUnixNano := toString now_ns,
                observedTimeUnixNano := toString now_ns,
                severityNumber := 9,
                severityText := severity,
                bodyStringValue := log_body,
                attributes := [
                  { key := "log.level", stringValue := severity.toLower },
                  { key := "log.source", stringValue := "file" } ] } ] } ] } ] }

/-- Lines 81-99: the body of the inner `for line in batch` loop, for one
line whose `urlopen` outcome is `o`.  Returns the updated `(sent, failed)`
counters and the diagnostic events printed. -/
def attemptStep (line : String) (o : SendOutcome) (sent failed : Nat) :
    Nat × Nat × List Event :=
  match o with
  | .response status =>
      if status == 200 then (sent + 1, failed, [])
      else (sent, failed + 1, [Event.failedStatus status (pyTake 80 line)])
  | .transportError msg => (sent, failed + 1, [Event.sendError msg])

/-- The diagnostic events of one attempt (they do not depend on the
counter values). -/
def attemptEvents (line : String) (o : SendOutcome) : List Event :=
  (attemptStep line o 0 0).2.2

/-- Lines 78-99: the inner loop over one batch; `k` is the global index of
the first line of the batch, used to address the network oracle. -/
def processBatch (oracle : Nat → SendOutcome) :
    Nat → List String → Nat → Nat → Nat × Nat × List Event
| _, [], sent, failed => (sent, failed, [])
| k, line :: rest, sent, failed =>
    let r := attemptStep line (oracle k) sent failed
    let t := processBatch oracle (k + 1) rest r.1 r.2.1
    (t.1, t.2.1, r.2.2 ++ t.2.2)

/-- Lines 74-105: `for i in range(0, total_lines, batch_size)`.  The first
argument of the match is the number of remaining loop iterations
(`range(0, total, b)` has `(total + b - 1) / b` elements for `b ≥ 1`);
`i` is the loop variable, stepped by `b`.  After each batch, a progress
line is printed iff `(i + b) % 500 == 0` (line 102), showing the current
`sent`, the total, and `rate sent elapsed` (lines 103-105). -/
def sendBatches (lines : List String) (b : Nat) (oracle : Nat → SendOutcome)
    (elapsedAt : Nat → ℚ) (total : Nat) :
    Nat → Nat → Nat → Nat → Nat → Nat × Nat × List Event
| 0, _, sent, failed, _ => (sent, failed, [])
| nb + 1, i, sent, failed, pc =>
    let batch := (lines.drop i).take b
    let r := processBatch oracle i batch sent failed
    if (i + b) % 500 == 0 then
      let t := sendBatches lines b oracle elapsedAt total nb (i + b) r.1 r.2.1 (pc + 1)
      (t.1, t.2.1, r.2.2 ++ Event.progress r.1 total (rate r.1 (elapsedAt pc)) :: t.2.2)
    else
      let t := sendBatches lines b oracle elapsedAt total nb (i + b) r.1 r.2.1 pc
      (t.1, t.2.1, r.2.2 ++ t.2.2)

/-- The observable result of one run of `send_logs`. -/
structure RunResult where
  sent : Nat
  failed : Nat
  events : List Event
  finalRate : ℚ
deriving DecidableEq

/-- Lines 58-121, `send_logs(file_path, batch_size=100)`, for a positive
batch size.  `raw` is the list of lines of the file; `elapsedAt j` is the
elapsed time observed at the `j`-th progress print (line 103) and
`finalElapsed` the one observed at line 108.  Payload construction and the
HTTP POST are abstracted by `oracle`, the outcome of the `k`-th attempt. -/
def send_logs (raw : List String) (batch_size : Nat)
    (oracle : Nat → SendOutcome) (elapsedAt : Nat → ℚ)
    (finalElapsed : ℚ) : RunResult :=
  let lines := processedLines raw
  let total := lines.length
  let nb := (total + batch_size - 1) / batch_size
  let r := sendBatches lines batch_size oracle elapsedAt total nb 0 0 0 0
  { sent := r.1, failed := r.2.1, events := r.2.2,
    finalRate := rate r.1 finalElapsed }

/-- Number of progress lines printed during a run. -/
def progressCount (r : RunResult) : Nat :=
  r.events.countP Event.isProgress

/-- The progress-print rule of line 102, iterated over the loop: given the
batch size `b`, the number of remaining batches and the current loop index
`i`, how many batches end with `(i + b) % 500 == 0`. -/
def progressChecks (b : Nat) : Nat → Nat → Nat
| 0, _ => 0
| nb + 1, i => (if (i + b) % 500 == 0 then 1 else 0) + progressChecks b nb (i + b)

/-- Definition following the words of the spec (testable property 3 and
§4.1 "Batching"): the cumulative processed count crosses the boundaries
500, 1000, ..., so over a whole run of `n` processed lines the spec
predicts exactly `n / 500` progress lines, for every batch size. -/
def specClaimedProgressTotal (n : Nat) : Nat :=
  n / 500

/-- The reason a run of `__main__` (lines 123-127) aborts with an uncaught
exception before the final report. -/
inductive FatalKind where
| batchSizeNotInt
| fileNotReadable
| zeroStep
deriving DecidableEq

/-- What a whole process run produces. -/
structure MainOutcome where
  fatal : Option FatalKind
  httpAttempts : Nat
  reportPrinted : Bool
  run : Option RunResult
deriving DecidableEq

/-- Lines 123-127 plus the file read at lines 62-63.  `fileContents` is
`none` when `open` raises (file missing/unreadable); `batchParse` is the
result of `int(sys.argv[2])` — `none` when it raises `ValueError` — or
`some 100` when the argument is absent.  `int()` is evaluated before
`send_logs` is called, and the file is opened before any HTTP request.
A batch size of `0` makes `range(0, total, 0)` raise `ValueError` after
the file is read but before any request; a negative batch size makes the
range empty, so the loop body never runs.  On a fatal path no HTTP attempt
happens and the final report of lines 111-118 is never printed. -/
def main_model (fileContents : Option (List String)) (batchParse : Option Int)
    (oracle : Nat → SendOutcome) (elapsedAt : Nat → ℚ)
    (finalElapsed : ℚ) : MainOutcome :=
  match batchParse with
  | none =>
      { fatal := some .batchSizeNotInt, httpAttempts := 0,
        reportPrinted := false, run := none }
  | some bz =>
    match fileContents with
    | none =>
        { fatal := some .fileNotReadable, httpAttempts := 0,
          reportPrinted := false, run := none }
    | some raw =>
        if bz = 0 then
          { fatal := some .zeroStep, httpAttempts := 0,
            reportPrinted := false, run := none }
        else if 0 < bz then
          let r := send_logs raw bz.toNat oracle elapsedAt finalElapsed
          { fatal := none, httpAttempts := r.sent + r.failed,
            reportPrinted := true, run := some r }
        else
          { fatal := none, httpAttempts := 0, reportPrinted := true,
            run := some { sent := 0, failed := 0, events := [],
                          finalRate := rate 0 finalElapsed } }

/-- The `sent` counter after one attempt: incremented exactly on success. -/
theorem attemptStep_fst (line : String) (o : SendOutcome) (sent failed : Nat) :
    (attemptStep line o sent failed).1 = sent + (if o.isSuccess then 1 else 0) := by
  cases o with
  | response status =>
      by_cases h : status == 200 <;>
        simp [attemptStep, SendOutcome.isSuccess, h]
  | transportError msg => simp [attemptStep, SendOutcome.isSuccess]

/-- The `failed` counter after one attempt: incremented exactly on failure. -/
theorem attemptStep_snd (line : String) (o : SendOutcome) (sent failed : Nat) :
    (attemptStep line o sent failed).2.1 = failed + (if o.isSuccess then 0 else 1) := by
  cases o with
  | response status =>
      by_cases h : status == 200 <;>
        simp [attemptStep, SendOutcome.isSuccess, h]
  | transportError msg => simp [attemptStep, SendOutcome.isSuccess]

/-- The diagnostics printed by one attempt do not depend on the counters. -/
theorem attemptStep_events (line : String) (o : SendOutcome) (sent failed : Nat) :
    (attemptStep line o sent failed).2.2 = attemptEvents line o := by
  cases o with
  | response status =>
      by_cases h : status == 200 <;> simp [attemptStep, attemptEvents, h]
  | transportError msg => rfl

/-- An attempt never prints a progress line. -/
theorem attemptEvents_noprog (line : String) (o : SendOutcome) :
    ∀ e ∈ attemptEvents line o, e.isProgress = false := by
  cases o with
  | response status =>
      by_cases h : status == 200 <;>
        simp [attemptEvents, attemptStep, h, Event.isProgress]
  | transportError msg =>
      simp [attemptEvents, attemptStep, Event.isProgress]

/-- Closed form of the `sent` counter over one batch. -/
theorem processBatch_fst (oracle : Nat → SendOutcome) (l : List String) :
    ∀ (k sent failed : Nat),
      (processBatch oracle k l sent failed).1
        = sent + (List.enumFrom k l).countP (fun p => (oracle p.1).isSuccess) := by
  induction l with
  | nil => intro k sent failed; simp [processBatch]
  | cons line rest ih =>
      intro k sent failed
      simp only [processBatch, List.enumFrom_cons, List.countP_cons]
      rw [ih, attemptStep_fst]
      by_cases h : (oracle k).isSuccess <;> simp [h] <;> omega

/-- Closed form of the `failed` counter over one batch. -/
theorem processBatch_snd (oracle : Nat → SendOutcome) (l : List String) :
    ∀ (k sent failed : Nat),
      (processBatch oracle k l sent failed).2.1
        = failed + (List.enumFrom k l).countP (fun p => !((oracle p.1).isSuccess)) := by
  induction l with
  | nil => intro k sent failed; simp [processBatch]
  | cons line rest ih =>
      intro k sent failed
      simp only [processBatch, List.enumFrom_cons, List.countP_cons]
      rw [ih, attemptStep_snd]
      by_cases h : (oracle k).isSuccess <;> simp [h] <;> omega

/-- Closed form of the diagnostics printed over one batch. -/
theorem processBatch_events (oracle : Nat → SendOutcome) (l : List String) :
    ∀ (k sent failed : Nat),
      (processBatch oracle k l sent failed).2.2
        = (List.enumFrom k l).flatMap (fun p => attemptEvents p.2 (oracle p.1)) := by
  induction l with
  | nil => intro k sent failed; simp [processBatch]
  | cons line rest ih =>
      intro k sent failed
      simp only [processBatch, List.enumFrom_cons, List.flatMap_cons]
      rw [ih, attemptStep_events]

/-- A batch never prints a progress line. -/
theorem processBatch_noprog (oracle : Nat → SendOutcome) (l : List String)
    (k sent failed : Nat) :
    ∀ e ∈ (processBatch oracle k l sent failed).2.2, e.isProgress = false := by
  intro e he
  rw [processBatch_events] at he
  rcases List.mem_flatMap.mp he with ⟨p, _, hp⟩
  exact attemptEvents_noprog p.2 (oracle p.1) e hp

/-- Ceiling bound: `range(0, n, b)` has enough iterations to cover `n`. -/
theorem le_ceil_mul {b : Nat} (hb : 0 < b) (n : Nat) :
    n ≤ ((n + b - 1) / b) * b := by
  rcases Nat.eq_zero_or_pos n with h0 | h0
  · simp [h0]
  · have hrw : n + b - 1 = (n - 1) + b := by omega
    rw [hrw, Nat.add_div_right _ hb, Nat.add_mul, one_mul]
    have h1 : b * ((n - 1) / b) + (n - 1) % b = n - 1 := Nat.div_add_mod _ _
    have h2 : (n - 1) % b < b := Nat.mod_lt _ hb
    have h3 : (n - 1) / b * b = b * ((n - 1) / b) := Nat.mul_comm _ _
    omega

/-- Splitting the remaining lines at the current batch boundary. -/
theorem drop_split (lines : List String) (i b : Nat) :
    lines.drop i = (lines.drop i).take b ++ lines.drop (i + b) := by
  conv_lhs => rw [← List.take_append_drop b (lines.drop i)]
  rw [List.drop_drop]

/-- The current batch has length `b` as long as `b` lines remain. -/
theorem batch_length (lines : List String) (i b : Nat) (h : i + b ≤ lines.length) :
    ((lines.drop i).take b).length = b := by
  rw [List.length_take, List.length_drop]
  exact min_eq_left (by omega)

/-- Closed form of the `sent` counter over the whole batch loop: with
enough iterations to cover the lines, it counts the successful attempts
among the remaining lines. -/
theorem sendBatches_fst (lines : List String) (b : Nat)
    (oracle : Nat → SendOutcome) (elapsedAt : Nat → ℚ) (total : Nat) :
    ∀ (nb i sent failed pc : Nat), lines.length ≤ i + nb * b →
      (sendBatches lines b oracle elapsedAt total nb i sent failed pc).1
        = sent + (List.enumFrom i (lines.drop i)).countP
            (fun p => (oracle p.1).isSuccess) := by
  intro nb
  induction nb with
  | zero =>
      intro i sent failed pc h
      have hd : lines.drop i = [] := List.drop_eq_nil_of_le (by simpa using h)
      simp [sendBatches, hd]
  | succ nb ih =>
      intro i sent failed pc h
      have hcov : lines.length ≤ (i + b) + nb * b := by
        rw [Nat.succ_mul] at h; omega
      have henum : List.enumFrom i (lines.drop i)
          = List.enumFrom i ((lines.drop i).take b)
            ++ List.enumFrom (i + ((lines.drop i).take b).length)
                (lines.drop (i + b)) := by
        conv_lhs => rw [drop_split lines i b]
        rw [List.enumFrom_append]
      have htail : (List.enumFrom (i + ((lines.drop i).take b).length)
              (lines.drop (i + b))).countP (fun p => (oracle p.1).isSuccess)
          = (List.enumFrom (i + b) (lines.drop (i + b))).countP
              (fun p => (oracle p.1).isSuccess) := by
        by_cases hc : i + b ≤ lines.length
        · rw [batch_length lines i b hc]
        · have hnil : lines.drop (i + b) = [] :=
            List.drop_eq_nil_of_le (by omega)
          simp [hnil]
      rw [henum, List.countP_append, htail]
      by_cases hp : ((i + b) % 500 == 0) = true
      · simp only [sendBatches]
        rw [if_pos hp]
        dsimp only
        rw [ih (i + b) _ _ (pc + 1) hcov, processBatch_fst]
        omega
      · simp only [sendBatches]
        rw [if_neg hp]
        dsimp only
        rw [ih (i + b) _ _ pc hcov, processBatch_fst]
        omega

/-- Closed form of the `failed` counter over the whole batch loop. -/
theorem sendBatches_snd (lines : List String) (b : Nat)
    (oracle : Nat → SendOutcome) (elapsedAt : Nat → ℚ) (total : Nat) :
    ∀ (nb i sent failed pc : Nat), lines.length ≤ i + nb * b →
      (sendBatches lines b oracle elapsedAt total nb i sent failed pc).2.1
        = failed + (List.enumFrom i (lines.drop i)).countP
            (fun p => !((oracle p.1).isSuccess)) := by
  intro nb
  induction nb with
  | zero =>
      intro i sent failed pc h
      have hd : lines.drop i = [] := List.drop_eq_nil_of_le (by simpa using h)
      simp [sendBatches, hd]
  | succ nb ih =>
      intro i sent failed pc h
      have hcov : lines.length ≤ (i + b) + nb * b := by
        rw [Nat.succ_mul] at h; omega
      have henum : List.enumFrom i (lines.drop i)
          = List.enumFrom i ((lines.drop i).take b)
            ++ List.enumFrom (i + ((lines.drop i).take b).length)
                (lines.drop (i + b)) := by
        conv_lhs => rw [drop_split lines i b]
        rw [List.enumFrom_append]
      have htail : (List.enumFrom (i + ((lines.drop i).take b).length)
              (lines.drop (i + b))).countP (fun p => !((oracle p.1).isSuccess))
          = (List.enumFrom (i + b) (lines.drop (i + b))).countP
              (fun p => !((oracle p.1).isSuccess)) := by
        by_cases hc : i + b ≤ lines.length
        · rw [batch_length lines i b hc]
        · have hnil : lines.drop (i + b) = [] :=
            List.drop_eq_nil_of_le (by omega)
          simp [hnil]
      rw [henum, List.countP_append, htail]
      by_cases hp : ((i + b) % 500 == 0) = true
      · simp only [sendBatches]
        rw [if_pos hp]
        dsimp only
        rw [ih (i + b) _ _ (pc + 1) hcov, processBatch_snd]
        omega
      · simp only [sendBatches]
        rw [if_neg hp]
        dsimp only
        rw [ih (i + b) _ _ pc hcov, processBatch_snd]
        omega

/-- The progress filter drops a progress line at the head of a list. -/
theorem filter_noprog_cons (s t : Nat) (q : ℚ) (tl : List Event) :
    List.filter (fun e => !(e.isProgress)) (Event.progress s t q :: tl)
      = List.filter (fun e => !(e.isProgress)) tl := by
  simp [Event.isProgress]

/-- The diagnostics of a batch pass unchanged through the progress filter. -/
theorem processBatch_filter (oracle : Nat → SendOutcome) (l : List String)
    (k sent failed : Nat) :
    ((processBatch oracle k l sent failed).2.2).filter (fun e => !(e.isProgress))
      = (processBatch oracle k l sent failed).2.2 :=
  List.filter_eq_self.mpr (by
    intro e he
    simp [processBatch_noprog oracle l k sent failed e he])

/-- Closed form of the diagnostic lines over the whole batch loop: with
enough iterations to cover the lines, the non-progress output is exactly
the per-attempt diagnostics of the remaining lines, in order. -/
theorem sendBatches_filter (lines : List String) (b : Nat)
    (oracle : Nat → SendOutcome) (elapsedAt : Nat → ℚ) (total : Nat) :
    ∀ (nb i sent failed pc : Nat), lines.length ≤ i + nb * b →
      ((sendBatches lines b oracle elapsedAt total nb i sent failed pc).2.2).filter
          (fun e => !(e.isProgress))
        = (List.enumFrom i (lines.drop i)).flatMap
            (fun p => attemptEvents p.2 (oracle p.1)) := by
  intro nb
  induction nb with
  | zero =>
      intro i sent failed pc h
      have hd : lines.drop i = [] := List.drop_eq_nil_of_le (by simpa using h)
      simp [sendBatches, hd]
  | succ nb ih =>
      intro i sent failed pc h
      have hcov : lines.length ≤ (i + b) + nb * b := by
        rw [Nat.succ_mul] at h; omega
      have henum : List.enumFrom i (lines.drop i)
          = List.enumFrom i ((lines.drop i).take b)
            ++ List.enumFrom (i + ((lines.drop i).take b).length)
                (lines.drop (i + b)) := by
        conv_lhs => rw [drop_split lines i b]
        rw [List.enumFrom_append]
      have htail : (List.enumFrom (i + ((lines.drop i).take b).length)
              (lines.drop (i + b))).flatMap (fun p => attemptEvents p.2 (oracle p.1))
          = (List.enumFrom (i + b) (lines.drop (i + b))).flatMap
              (fun p => attemptEvents p.2 (oracle p.1)) := by
        by_cases hc : i + b ≤ lines.length
        · rw [batch_length lines i b hc]
        · have hnil : lines.drop (i + b) = [] :=
            List.drop_eq_nil_of_le (by omega)
          simp [hnil]
      rw [henum, List.flatMap_append, htail]
      by_cases hp : ((i + b) % 500 == 0) = true
      · simp only [sendBatches]
        rw [if_pos hp]
        dsimp only
        rw [List.filter_append, filter_noprog_cons, processBatch_filter,
          processBatch_events, ih (i + b) _ _ (pc + 1) hcov]
      · simp only [sendBatches]
        rw [if_neg hp]
        dsimp only
        rw [List.filter_append, processBatch_filter, processBatch_events,
          ih (i + b) _ _ pc hcov]

/-- The number of progress lines printed by the batch loop depends only on
the batch size, the number of iterations and the starting index: one line
per batch whose index satisfies the check of line 102. -/
theorem sendBatches_progress (lines : List String) (b : Nat)
    (oracle : Nat → SendOutcome) (elapsedAt : Nat → ℚ) (total : Nat) :
    ∀ (nb i sent failed pc : Nat),
      ((sendBatches lines b oracle elapsedAt total nb i sent failed pc).2.2).countP
          Event.isProgress
        = progressChecks b nb i := by
  intro nb
  induction nb with
  | zero =>
      intro i sent failed pc
      simp [sendBatches, progressChecks]
  | succ nb ih =>
      intro i sent failed pc
      have hbatch : ((processBatch oracle i ((lines.drop i).take b) sent
            failed).2.2).countP Event.isProgress = 0 :=
        List.countP_eq_zero.mpr (by
          intro e he
          simp [processBatch_noprog oracle _ i sent failed e he])
      by_cases hp : ((i + b) % 500 == 0) = true
      · simp only [sendBatches]
        rw [if_pos hp]
        dsimp only
        rw [List.countP_append, List.countP_cons, hbatch, ih]
        simp [progressChecks, hp, Event.isProgress]
        omega
      · simp only [sendBatches]
        rw [if_neg hp]
        dsimp only
        rw [List.countP_append, hbatch, ih]
        simp [progressChecks, hp]

/-- Splitting a count: every element satisfies `p` or its negation. -/
theorem countP_split {α : Type _} (p : α → Bool) (l : List α) :
    l.countP p + l.countP (fun a => !(p a)) = l.length := by
  induction l with
  | nil => simp
  | cons a l ih =>
      by_cases h : p a = true <;>
        simp [List.countP_cons, h] <;> omega

/-- The element at index `k` appears in `enumFrom` with its index. -/
theorem mem_enumFrom_of_lt {α : Type _} :
    ∀ (l : List α) (n k : Nat) (h : k < l.length),
      (n + k, l.get ⟨k, h⟩) ∈ List.enumFrom n l := by
  intro l
  induction l with
  | nil => intro n k h; simp at h
  | cons a l ih =>
      intro n k h
      cases k with
      | zero => simp [List.enumFrom_cons]
      | succ k =>
          have hk : k < l.length := by simpa using h
          have hmem := ih (n + 1) k hk
          simp only [List.enumFrom_cons, List.mem_cons]
          right
          have harith : n + (k + 1) = (n + 1) + k := by omega
          simpa [harith] using hmem

/-- Closed form of a whole positive-batch-size run of `send_logs`: the
counters count the per-attempt outcomes over the processed lines, the
non-progress output is the concatenation of the per-attempt diagnostics,
and the progress lines follow the check of line 102. -/
theorem send_logs_closed (raw : List String) (b : Nat)
    (oracle : Nat → SendOutcome) (elapsedAt : Nat → ℚ) (finalElapsed : ℚ)
    (hb : 0 < b) :
    (send_logs raw b oracle elapsedAt finalElapsed).sent
        = (List.enumFrom 0 (processedLines raw)).countP
            (fun p => (oracle p.1).isSuccess)
    ∧ (send_logs raw b oracle elapsedAt finalElapsed).failed
        = (List.enumFrom 0 (processedLines raw)).countP
            (fun p => !((oracle p.1).isSuccess))
    ∧ ((send_logs raw b oracle elapsedAt finalElapsed).events).filter
          (fun e => !(e.isProgress))
        = (List.enumFrom 0 (processedLines raw)).flatMap
            (fun p => attemptEvents p.2 (oracle p.1))
    ∧ progressCount (send_logs raw b oracle elapsedAt finalElapsed)
        = progressChecks b (((processedLines raw).length + b - 1) / b) 0 := by
  have hcov : (processedLines raw).length
      ≤ 0 + (((processedLines raw).length + b - 1) / b) * b := by
    simpa using le_ceil_mul hb (processedLines raw).length
  refine ⟨?_, ?_, ?_, ?_⟩
  · have := sendBatches_fst (processedLines raw) b oracle elapsedAt
      (processedLines raw).length (((processedLines raw).length + b - 1) / b)
      0 0 0 0 hcov
    simpa [send_logs] using this
  · have := sendBatches_snd (processedLines raw) b oracle elapsedAt
      (processedLines raw).length (((processedLines raw).length + b - 1) / b)
      0 0 0 0 hcov
    simpa [send_logs] using this
  · have := sendBatches_filter (processedLines raw) b oracle elapsedAt
      (processedLines raw).length (((processedLines raw).length + b - 1) / b)
      0 0 0 0 hcov
    simpa [send_logs] using this
  · have := sendBatches_progress (processedLines raw) b oracle elapsedAt
      (processedLines raw).length (((processedLines raw).length + b - 1) / b)
      0 0 0 0
    simpa [send_logs, progressCount] using this

/-- C4: for every input line, the constructed OTLP payload's
`body.stringValue` equals the trimmed line exactly, `severityText` is the
string "INFO" by default, and `severityNumber` equals the fixed numeric
constant for INFO (9). -/
theorem spec_C4 (line : String) (now_ns : Nat) :
    ∃ rl sl rec,
      (create_otlp_payload now_ns (pyStrip line)).resourceLogs = [rl]
      ∧ rl.scopeLogs = [sl]
      ∧ sl.logRecords = [rec]
      ∧ rec.bodyStringValue = pyStrip line
      ∧ rec.severityText = "INFO"
      ∧ rec.severityNumber = 9 :=
  ⟨_, _, _, rfl, rfl, rfl, rfl, rfl, rfl⟩

/-- C9: every constructed payload contains exactly one `resourceLogs`
entry holding exactly one log record, and its `timeUnixNano` and
`observedTimeUnixNano` are equal, both rendering the single wall-clock
capture `now_ns` as a decimal string. -/
theorem spec_C9 (log_body severity : String) (now_ns : Nat) :
    ∃ rl sl rec,
      (create_otlp_payload now_ns log_body severity).resourceLogs = [rl]
      ∧ rl.scopeLogs = [sl]
      ∧ sl.logRecords = [rec]
      ∧ rec.timeUnixNano = toString now_ns
      ∧ rec.observedTimeUnixNano = toString now_ns
      ∧ rec.timeUnixNano = rec.observedTimeUnixNano :=
  ⟨_, _, _, rfl, rfl, rfl, rfl, rfl, rfl⟩

/-- C5: for a send attempt that produces an HTTP response, `sent` is
incremented if and only if the status equals 200 exactly; any other status
increments `failed` and emits a diagnostic carrying the status code and
the first 80 characters of the line. -/
theorem spec_C5 (line : String) (status sent failed : Nat) :
    ((attemptStep line (SendOutcome.response status) sent failed).1 = sent + 1
        ↔ status = 200)
    ∧ (status = 200 →
        attemptStep line (SendOutcome.response status) sent failed
          = (sent + 1, failed, []))
    ∧ (status ≠ 200 →
        attemptStep line (SendOutcome.response status) sent failed
          = (sent, failed + 1,
              [Event.failedStatus status (pyTake 80 line)])) := by
  by_cases h : status = 200
  · subst h
    exact ⟨by simp [attemptStep], fun _ => by simp [attemptStep],
      fun hc => absurd rfl hc⟩
  · have hbeq : (status == 200) = false := by simpa using h
    refine ⟨?_, fun hc => absurd hc h, fun _ => by simp [attemptStep, hbeq]⟩
    simp [attemptStep, hbeq]
    omega

/-- C5 witness: a 404 response increments `failed` and prints the status
with the 80-character preview. -/
theorem spec_C5_witness :
    (404 ≠ 200)
    ∧ attemptStep "hello" (SendOutcome.response 404) 0 0
        = (0, 1, [Event.failedStatus 404 (pyTake 80 "hello")]) :=
  ⟨by decide, (spec_C5 "hello" 404 0 0).2.2 (by decide)⟩

/-- C8: the rate computation never divides by zero: at elapsed time 0 the
reported rate is 0, and at any positive elapsed time it is `sent` divided
by `elapsed`; `send_logs` reports `rate sent finalElapsed` in its final
report. -/
theorem spec_C8 (sent : Nat) (elapsed : ℚ) (h : 0 ≤ elapsed) :
    (elapsed = 0 → rate sent elapsed = 0)
    ∧ (elapsed ≠ 0 → rate sent elapsed = (sent : ℚ) / elapsed)
    ∧ (∀ (raw : List String) (b : Nat) (oracle : Nat → SendOutcome)
        (elapsedAt : Nat → ℚ),
        (send_logs raw b oracle elapsedAt elapsed).finalRate
          = rate (send_logs raw b oracle elapsedAt elapsed).sent elapsed) := by
  refine ⟨?_, ?_, ?_⟩
  · intro h0
    simp [rate, h0]
  · intro hne
    have hpos : 0 < elapsed := lt_of_le_of_ne h (Ne.symm hne)
    simp [rate, hpos]
  · intro raw b oracle elapsedAt
    simp [send_logs]

/-- C8 witness: at elapsed time 0 the reported rate is 0. -/
theorem spec_C8_witness :
    (0 : ℚ) ≤ 0 ∧ rate 7 0 = 0 :=
  ⟨le_refl 0, (spec_C8 7 0 (le_refl 0)).1 rfl⟩

/-- C7: a fatal condition — unreadable input file or a batch-size argument
that does not parse as an integer — aborts the run before any HTTP request
and prints no final statistics report. -/
theorem spec_C7 (fileContents : Option (List String)) (batchParse : Option Int)
    (oracle : Nat → SendOutcome) (elapsedAt : Nat → ℚ) (finalElapsed : ℚ)
    (h : batchParse = none ∨ fileContents = none) :
    (main_model fileContents batchParse oracle elapsedAt finalElapsed).httpAttempts = 0
    ∧ (main_model fileContents batchParse oracle elapsedAt finalElapsed).reportPrinted = false
    ∧ (main_model fileContents batchParse oracle elapsedAt finalElapsed).run = none := by
  rcases h with h | h
  · subst h
    simp [main_model]
  · subst h
    cases batchParse with
    | none => simp [main_model]
    | some bz => simp [main_model]

/-- C7 witness: with an unreadable file the process makes no HTTP attempt
and prints no report. -/
theorem spec_C7_witness :
    ((some 100 : Option Int) = none ∨ (none : Option (List String)) = none)
    ∧ (main_model none (some 100) (fun _ => SendOutcome.response 200)
        (fun _ => 0) 0).httpAttempts = 0
    ∧ (main_model none (some 100) (fun _ => SendOutcome.response 200)
        (fun _ => 0) 0).reportPrinted = false
    ∧ (main_model none (some 100) (fun _ => SendOutcome.response 200)
        (fun _ => 0) 0).run = none :=
  ⟨Or.inr rfl, spec_C7 none (some 100) (fun _ => SendOutcome.response 200)
    (fun _ => 0) 0 (Or.inr rfl)⟩

/-- C1: for an input file whose processed (non-empty after trimming) lines
number N, if every POST completes with status 200 and no transport error
occurs, then at completion `sent = N` and `failed = 0`. -/
theorem spec_C1 (raw : List String) (b : Nat) (oracle : Nat → SendOutcome)
    (elapsedAt : Nat → ℚ) (finalElapsed : ℚ) (hb : 0 < b)
    (hok : ∀ k < (processedLines raw).length, oracle k = SendOutcome.response 200) :
    (send_logs raw b oracle elapsedAt finalElapsed).sent
        = (processedLines raw).length
    ∧ (send_logs raw b oracle elapsedAt finalElapsed).failed = 0 := by
  obtain ⟨hs, hf, -, -⟩ := send_logs_closed raw b oracle elapsedAt finalElapsed hb
  constructor
  · rw [hs]
    have hall : (List.enumFrom 0 (processedLines raw)).countP
        (fun p => (oracle p.1).isSuccess)
        = (List.enumFrom 0 (processedLines raw)).length := by
      apply List.countP_eq_length.mpr
      rintro ⟨i, x⟩ ha
      obtain ⟨-, h2, -⟩ := List.mem_enumFrom ha
      rw [hok i (by simpa using h2)]
      simp [SendOutcome.isSuccess]
    rw [hall, List.enumFrom_length]
  · rw [hf]
    apply List.countP_eq_zero.mpr
    rintro ⟨i, x⟩ ha
    obtain ⟨-, h2, -⟩ := List.mem_enumFrom ha
    rw [hok i (by simpa using h2)]
    simp [SendOutcome.isSuccess]

/-- C1 witness: a one-line file, batch size 1, all responses 200. -/
theorem spec_C1_witness :
    0 < 1
    ∧ (send_logs ["x"] 1 (fun _ => SendOutcome.response 200)
        (fun _ => 0) 0).sent = (processedLines ["x"]).length
    ∧ (send_logs ["x"] 1 (fun _ => SendOutcome.response 200)
        (fun _ => 0) 0).failed = 0 :=
  ⟨Nat.one_pos, spec_C1 ["x"] 1 (fun _ => SendOutcome.response 200)
    (fun _ => 0) 0 Nat.one_pos (fun _ _ => rfl)⟩

/-- C3: a send attempt failing at the transport level is locally
recovered: `failed` is incremented by one, a diagnostic carrying the error
description is emitted, and the run still processes every line (every
attempt completes, so the two counters sum to N). -/
theorem spec_C3 (raw : List String) (b : Nat) (oracle : Nat → SendOutcome)
    (elapsedAt : Nat → ℚ) (finalElapsed : ℚ) (m : String) (k : Nat)
    (hb : 0 < b) (hk : k < (processedLines raw).length)
    (ho : oracle k = SendOutcome.transportError m) :
    (∀ (line : String) (sent failed : Nat),
        attemptStep line (SendOutcome.transportError m) sent failed
          = (sent, failed + 1, [Event.sendError m]))
    ∧ Event.sendError m ∈ (send_logs raw b oracle elapsedAt finalElapsed).events
    ∧ (send_logs raw b oracle elapsedAt finalElapsed).sent
        + (send_logs raw b oracle elapsedAt finalElapsed).failed
        = (processedLines raw).length := by
  obtain ⟨hs, hf, hev, -⟩ := send_logs_closed raw b oracle elapsedAt finalElapsed hb
  refine ⟨fun line sent failed => rfl, ?_, ?_⟩
  · have hmem : (k, (processedLines raw).get ⟨k, hk⟩)
        ∈ List.enumFrom 0 (processedLines raw) := by
      simpa using mem_enumFrom_of_lt (processedLines raw) 0 k hk
    have hin : Event.sendError m
        ∈ (List.enumFrom 0 (processedLines raw)).flatMap
            (fun p => attemptEvents p.2 (oracle p.1)) :=
      List.mem_flatMap.mpr ⟨(k, (processedLines raw).get ⟨k, hk⟩), hmem,
        by simp [attemptEvents, attemptStep, ho]⟩
    rw [← hev] at hin
    exact List.mem_of_mem_filter hin
  · rw [hs, hf]
    have hsplit := countP_split (fun p => (oracle p.1).isSuccess)
      (List.enumFrom 0 (processedLines raw))
    rw [List.enumFrom_length] at hsplit
    exact hsplit

/-- C3 witness: a one-line file whose only attempt raises a transport
error leaves its diagnostic in the output. -/
theorem spec_C3_witness :
    0 < 1 ∧ 0 < (processedLines ["x"]).length
    ∧ Event.sendError "boom" ∈ (send_logs ["x"] 1
        (fun _ => SendOutcome.transportError "boom") (fun _ => 0) 0).events :=
  ⟨Nat.one_pos, by decide,
    (spec_C3 ["x"] 1 (fun _ => SendOutcome.transportError "boom")
      (fun _ => 0) 0 "boom" 0 Nat.one_pos (by decide) rfl).2.1⟩

/-- C6: blank lines (empty or whitespace-only) are excluded from the
processed-line count, every processed line is non-empty, and the number of
send attempts (successes plus failures) equals the processed count. -/
theorem spec_C6 (raw : List String) (b : Nat) (oracle : Nat → SendOutcome)
    (elapsedAt : Nat → ℚ) (finalElapsed : ℚ) (hb : 0 < b) :
    (processedLines raw).length = raw.countP (fun l => !(pyStrip l == ""))
    ∧ (∀ l ∈ processedLines raw, l ≠ "")
    ∧ (send_logs raw b oracle elapsedAt finalElapsed).sent
        + (send_logs raw b oracle elapsedAt finalElapsed).failed
        = (processedLines raw).length := by
  obtain ⟨hs, hf, -, -⟩ := send_logs_closed raw b oracle elapsedAt finalElapsed hb
  refine ⟨?_, ?_, ?_⟩
  · rw [processedLines, List.length_map, List.countP_eq_length_filter]
  · intro l hl
    rw [processedLines] at hl
    obtain ⟨x, hx, hxl⟩ := List.mem_map.mp hl
    have hq := (List.mem_filter.mp hx).2
    intro hcon
    rw [← hxl] at hcon
    simp [hcon] at hq
  · rw [hs, hf]
    have hsplit := countP_split (fun p => (oracle p.1).isSuccess)
      (List.enumFrom 0 (processedLines raw))
    rw [List.enumFrom_length] at hsplit
    exact hsplit

/-- C6 witness: the spec's own example file `["a", "", "  ", "b"]`. -/
theorem spec_C6_witness :
    0 < 1
    ∧ (processedLines ["a", "", "  ", "b"]).length
        = List.countP (fun l => !(pyStrip l == "")) ["a", "", "  ", "b"]
    ∧ (∀ l ∈ processedLines ["a", "", "  ", "b"], l ≠ "")
    ∧ (send_logs ["a", "", "  ", "b"] 1 (fun _ => SendOutcome.response 200)
          (fun _ => 0) 0).sent
        + (send_logs ["a", "", "  ", "b"] 1 (fun _ => SendOutcome.response 200)
            (fun _ => 0) 0).failed
        = (processedLines ["a", "", "  ", "b"]).length :=
  ⟨Nat.one_pos, spec_C6 ["a", "", "  ", "b"] 1
    (fun _ => SendOutcome.response 200) (fun _ => 0) 0 Nat.one_pos⟩

/-- C10: every attempt increments exactly one of the two counters by one,
and at completion `sent + failed` equals the number of processed lines. -/
theorem spec_C10 (raw : List String) (b : Nat) (oracle : Nat → SendOutcome)
    (elapsedAt : Nat → ℚ) (finalElapsed : ℚ) (hb : 0 < b) :
    (send_logs raw b oracle elapsedAt finalElapsed).sent
        + (send_logs raw b oracle elapsedAt finalElapsed).failed
        = (processedLines raw).length
    ∧ (∀ (line : String) (o : SendOutcome) (sent failed : Nat),
        (attemptStep line o sent failed).1
          + (attemptStep line o sent failed).2.1 = sent + failed + 1) := by
  obtain ⟨hs, hf, -, -⟩ := send_logs_closed raw b oracle elapsedAt finalElapsed hb
  constructor
  · rw [hs, hf]
    have hsplit := countP_split (fun p => (oracle p.1).isSuccess)
      (List.enumFrom 0 (processedLines raw))
    rw [List.enumFrom_length] at hsplit
    exact hsplit
  · intro line o sent failed
    rw [attemptStep_fst, attemptStep_snd]
    by_cases h : o.isSuccess <;> simp [h] <;> omega

/-- C10 witness: a run with one success and one transport failure. -/
theorem spec_C10_witness :
    0 < 2
    ∧ (send_logs ["x", "y"] 2 (fun k => if k == 0 then SendOutcome.response 200
          else SendOutcome.transportError "down") (fun _ => 0) 0).sent
        + (send_logs ["x", "y"] 2 (fun k => if k == 0 then SendOutcome.response 200
            else SendOutcome.transportError "down") (fun _ => 0) 0).failed
        = (processedLines ["x", "y"]).length :=
  ⟨Nat.zero_lt_two, (spec_C10 ["x", "y"] 2
    (fun k => if k == 0 then SendOutcome.response 200
      else SendOutcome.transportError "down") (fun _ => 0) 0
    Nat.zero_lt_two).1⟩

/-- C2 counterexample: with batch size 500 and a 3-line file, the code
prints a progress line after the first (only) batch because
`(0 + 500) % 500 == 0`, although the cumulative processed count (3) never
crosses a multiple of 500; the spec's prediction of `3 / 500 = 0` progress
lines is violated. -/
theorem spec_C2_counterexample :
    progressCount (send_logs ["a", "b", "c"] 500
        (fun _ => SendOutcome.response 200) (fun _ => 0) 0)
      ≠ specClaimedProgressTotal (processedLines ["a", "b", "c"]).length := by
  decide

/-- C2 amended: a progress line is printed after the batch starting at
loop index `i` exactly when `(i + batch_size) % 500 == 0`; over the whole
run the number of progress lines is `progressChecks` of the iteration
count, independent of the attempt outcomes and of the cumulative count. -/
theorem spec_C2_amended (raw : List String) (b : Nat)
    (oracle : Nat → SendOutcome) (elapsedAt : Nat → ℚ) (finalElapsed : ℚ)
    (hb : 0 < b) :
    progressCount (send_logs raw b oracle elapsedAt finalElapsed)
      = progressChecks b (((processedLines raw).length + b - 1) / b) 0 :=
  (send_logs_closed raw b oracle elapsedAt finalElapsed hb).2.2.2

/-- C2 amended witness: the counterexample run, now matching the code's
actual rule (one progress line: `(0 + 500) % 500 == 0`). -/
theorem spec_C2_amended_witness :
    0 < 500
    ∧ progressCount (send_logs ["a", "b", "c"] 500
          (fun _ => SendOutcome.response 200) (fun _ => 0) 0)
        = progressChecks 500 (((processedLines ["a", "b", "c"]).length
            + 500 - 1) / 500) 0 :=
  ⟨by decide, spec_C2_amended ["a", "b", "c"] 500
    (fun _ => SendOutcome.response 200) (fun _ => 0) 0 (by decide)⟩
